import Mathlib

/-!
Verification of the nba data-analysis pipeline.

Shallow embedding of the pipeline's core modules:

* `data_cleaning.py` — `clean_data`, the deterministic row/column quality
  filter;
* `eda.py` — `get_league_game_log`, the cached fetch / dedup-merge /
  fallback logic;
* `get_injuries.py` — the per-game retry/backoff loop of
  `get_season_game_injuries` and `merge_injuries_with_games`;
* `preprocessing.py` — `create_pregame_features`,
  `add_opponent_features` and `get_feature_columns`.

Tabular data is modelled as lists of rows; missing values (pandas `NaN`)
are modelled with `Option`; numeric statistics are modelled as rationals.
-/

namespace NBA

/-! Module data_cleaning.py -/

/-- A column header: its name and whether pandas treats it as numeric
(used by `select_dtypes(include=[np.number])`). -/
structure CColumn where
  name : String
  numeric : Bool
  deriving DecidableEq, Repr

/-- A data row: its cells as (column name, value) pairs, `none` marking a
missing value (`NaN`). -/
abbrev CRow := List (String × Option ℚ)

/-- A tabular dataset for the cleaning step. -/
structure CTable where
  cols : List CColumn
  rows : List CRow
  deriving DecidableEq, Repr

/-- Value of column `c` in row `r` (`none` when missing or absent). -/
def cellVal (r : CRow) (c : String) : Option ℚ :=
  match r.find? (fun p => p.1 == c) with
  | some p => p.2
  | none => none

/-- Number of rows whose value in column `c` is missing
(`cleaned[c].isna().sum()`). -/
def naCount (rows : List CRow) (c : String) : Nat :=
  (rows.filter (fun r => (cellVal r c).isNone)).length

/-- The non-missing values of column `c` down the rows
(`cleaned[c].dropna()`). -/
def nonNAVals (rows : List CRow) (c : String) : List ℚ :=
  rows.filterMap (fun r => cellVal r c)

/-- The proportion of missing values of column `c`
(`cleaned.isna().mean()[c]`); `none` models the pandas `NaN` obtained
on an empty table. -/
def naProp (rows : List CRow) (c : String) : Option ℚ :=
  if rows.length = 0 then none else some ((naCount rows c : ℚ) / rows.length)

/-- Comparison `x > t` for a possibly-`NaN` proportion: any comparison against pandas
`NaN` is false. -/
def gtThr (x : Option ℚ) (t : ℚ) : Bool :=
  match x with
  | none => false
  | some v => decide (v > t)

/-- Drop the named columns from a table: the headers and, in every row, the
cells of those columns (`cleaned.drop(columns=bad)`). -/
def dropColsByName (bad : List String) (t : CTable) : CTable :=
  ⟨t.cols.filter (fun c => !(bad.contains c.name)),
   t.rows.map (fun r => r.filter (fun p => !(bad.contains p.1)))⟩

/-- Step 2 column selection of `clean_data`:
`na_proportions[na_proportions > na_threshold].index.tolist()`. -/
def srcHighNACols (rows : List CRow) (cols : List CColumn) (thr : ℚ) : List String :=
  (cols.filter (fun c => gtThr (naProp rows c.name) thr)).map (·.name)

/-- Step 3 column selection of `clean_data`: iterate over the numeric columns,
skip the target, and collect those whose non-missing values are nonempty and
all zero. -/
def srcAllZeroCols (cols : List CColumn) (rows : List CRow) (target : String) :
    List String :=
  ((cols.filter (·.numeric)).filter (fun c => !(c.name == target) &&
    (!(nonNAVals rows c.name).isEmpty &&
      (nonNAVals rows c.name).all (· == 0)))).map (·.name)

/-- Model of `clean_data` from `data_cleaning.py`, step by step:
rows with missing target are removed first; then columns whose proportion
of missing values strictly exceeds `na_threshold`; then numeric non-target
columns whose every non-missing value is zero (provided the column has at
least one non-missing value); step 4 of the source only prints an advisory
warning about mostly-zero columns (`zero_threshold`) and mutates nothing;
finally rows with a missing value in any predictor column are removed. -/
def clean_data (data : CTable) (target_col : String)
    (na_threshold zero_threshold : ℚ) : CTable :=
  -- Step 1: Remove rows with missing target variable
  let cleaned1 : List CRow := data.rows.filter (fun r => (cellVal r target_col).isSome)
  -- Step 2: Identify and remove columns with high proportion of NAs
  let high_na_cols := srcHighNACols cleaned1 data.cols na_threshold
  let t2 := dropColsByName high_na_cols ⟨data.cols, cleaned1⟩
  -- Step 3: Remove numeric columns that are all zeros (or all zeros + NAs)
  let all_zero_cols := srcAllZeroCols t2.cols t2.rows target_col
  let t3 := dropColsByName all_zero_cols t2
  -- Step 4 is advisory only: it prints columns with zero-proportion above
  -- `zero_threshold` but keeps them, so it does not appear in the result.
  -- Step 5: Remove rows with any remaining NAs in predictors
  let predictor_cols := (t3.cols.filter (fun c => !(c.name == target_col))).map (·.name)
  ⟨t3.cols, t3.rows.filter (fun r => predictor_cols.all (fun c => (cellVal r c).isSome))⟩

/-! Spec-side step functions, written from the claim's wording, to be
compared with `clean_data`. -/

/-- Spec wording: drop every row whose target value is missing. -/
def dropMissingTargetRows (target : String) (t : CTable) : CTable :=
  ⟨t.cols, t.rows.filter (fun r => (cellVal r target).isSome)⟩

/-- Spec wording: columns whose missing-value proportion strictly exceeds
the threshold (a proportion needs at least one row). -/
def specHighNACols (thr : ℚ) (t : CTable) : List String :=
  (t.cols.filter (fun c =>
    decide (0 < t.rows.length) &&
      decide ((naCount t.rows c.name : ℚ) / t.rows.length > thr))).map (·.name)

/-- Spec wording: drop every column whose missing-value proportion strictly
exceeds `na_threshold`. -/
def dropHighNACols (thr : ℚ) (t : CTable) : CTable :=
  dropColsByName (specHighNACols thr t) t

/-- Spec wording: the numeric non-target columns all of whose (at least one)
non-missing values are exactly zero. -/
def specAllZeroCols (target : String) (t : CTable) : List String :=
  (t.cols.filter (fun c => c.numeric && (!(c.name == target) &&
    (!(nonNAVals t.rows c.name).isEmpty &&
      (nonNAVals t.rows c.name).all (· == 0))))).map (·.name)

/-- Spec wording: drop every numeric non-target column all of whose
non-missing values are exactly zero — no threshold involved. -/
def dropAllZeroCols (target : String) (t : CTable) : CTable :=
  dropColsByName (specAllZeroCols target t) t

/-- Spec wording: drop every remaining row with a missing value in some
predictor (non-target) column. -/
def dropNAPredictorRows (target : String) (t : CTable) : CTable :=
  ⟨t.cols,
   t.rows.filter (fun r =>
     ((t.cols.filter (fun c => !(c.name == target))).map (·.name)).all
       (fun c => (cellVal r c).isSome))⟩

theorem isSome_not_isNone (o : Option ℚ) : o.isSome = !o.isNone := by
  cases o <;> rfl

theorem gtThr_naProp (rows : List CRow) (c : String) (thr : ℚ) :
    gtThr (naProp rows c) thr =
      (decide (0 < rows.length) && decide ((naCount rows c : ℚ) / rows.length > thr)) := by
  unfold gtThr naProp
  rcases Nat.eq_zero_or_pos rows.length with h | h
  · simp [h]
  · simp [Nat.pos_iff_ne_zero.mp h, h]

theorem srcHighNACols_eq_spec (rows : List CRow) (cols : List CColumn) (thr : ℚ) :
    srcHighNACols rows cols thr = specHighNACols thr ⟨cols, rows⟩ := by
  unfold srcHighNACols specHighNACols
  simp only [gtThr_naProp]

theorem srcAllZeroCols_eq_spec (cols : List CColumn) (rows : List CRow) (target : String) :
    srcAllZeroCols cols rows target = specAllZeroCols target ⟨cols, rows⟩ := by
  unfold srcAllZeroCols specAllZeroCols
  rw [List.filter_filter]
  congr 1
  apply List.filter_congr
  intro c _
  cases c.numeric <;> simp

/-- C8: `clean_data` performs, in order: drop target-missing rows, drop
high-NA columns, drop all-zero numeric non-target columns (independently of
`zero_threshold`), and drop rows with missing predictor values. -/
theorem clean_data_step_order (data : CTable) (target : String) (na_thr z_thr : ℚ) :
    clean_data data target na_thr z_thr =
      dropNAPredictorRows target
        (dropAllZeroCols target (dropHighNACols na_thr (dropMissingTargetRows target data))) := by
  unfold clean_data dropNAPredictorRows dropAllZeroCols dropHighNACols dropMissingTargetRows
  dsimp only
  rw [srcHighNACols_eq_spec, srcAllZeroCols_eq_spec]

/-! Lemmas towards C9: `clean_data` only shrinks its input, and it is
idempotent exactly when the final row drop creates no new all-zero column. -/

theorem find?_name_filter (r : CRow) (p : String × Option ℚ → Bool) (c : String)
    (h : ∀ x ∈ r, x.1 = c → p x = true) :
    (r.filter p).find? (fun x => x.1 == c) = r.find? (fun x => x.1 == c) := by
  induction r with
  | nil => rfl
  | cons a r ih =>
    have ih' := ih (fun x hx hc => h x (List.mem_cons_of_mem a hx) hc)
    by_cases hac : a.1 = c
    · have hpa : p a = true := h a (List.mem_cons_self a r) hac
      simp [List.filter_cons, hpa, List.find?_cons, hac]
    · have hq : (a.1 == c) = false := by simpa using hac
      cases hpa : p a with
      | true => simp [List.filter_cons, hpa, List.find?_cons, hq, ih']
      | false => simp [List.filter_cons, hpa, List.find?_cons, hq, ih']

theorem cellVal_filter (r : CRow) (p : String × Option ℚ → Bool) (c : String)
    (h : ∀ x ∈ r, x.1 = c → p x = true) :
    cellVal (r.filter p) c = cellVal r c := by
  unfold cellVal
  rw [find?_name_filter r p c h]

theorem naCount_eq_zero {rows : List CRow} {c : String} :
    naCount rows c = 0 ↔ ∀ r ∈ rows, (cellVal r c).isSome = true := by
  unfold naCount
  rw [List.length_eq_zero, List.filter_eq_nil_iff]
  constructor
  · intro h r hr
    have h' := h r hr
    rw [isSome_not_isNone]
    cases hv : (cellVal r c).isNone
    · rfl
    · exact absurd hv h'
  · intro h r hr
    have h' := h r hr
    rw [isSome_not_isNone] at h'
    intro hv
    rw [hv] at h'
    simp at h'

theorem dropColsByName_nil (t : CTable) : dropColsByName [] t = t := by
  unfold dropColsByName
  cases t with
  | mk cols rows => simp

/-- A threshold of at least `0` never flags an NA-free column; in particular
the target column, NA-free after step 1, is never dropped by step 2. -/
theorem not_mem_srcHighNACols {rows : List CRow} {cols : List CColumn} {a : ℚ}
    (h0 : 0 ≤ a) {c : String} (hna : naCount rows c = 0) :
    c ∉ srcHighNACols rows cols a := by
  unfold srcHighNACols
  intro hmem
  rw [List.mem_map] at hmem
  obtain ⟨cc, hcc, hname⟩ := hmem
  have hpred := (List.mem_filter.mp hcc).2
  rw [hname] at hpred
  rw [gtThr_naProp, hna] at hpred
  simp only [Nat.cast_zero, zero_div, Bool.and_eq_true, decide_eq_true_eq] at hpred
  exact absurd hpred.2 (not_lt.mpr h0)

/-- The target column is never collected by the all-zero scan. -/
theorem target_not_mem_srcAllZeroCols {cols : List CColumn} {rows : List CRow}
    {target : String} : target ∉ srcAllZeroCols cols rows target := by
  unfold srcAllZeroCols
  intro hmem
  rw [List.mem_map] at hmem
  obtain ⟨cc, hcc, hname⟩ := hmem
  have hpred := (List.mem_filter.mp hcc).2
  rw [hname] at hpred
  simp at hpred

theorem contains_eq_false_of_not_mem {l : List String} {s : String} (h : s ∉ l) :
    l.contains s = false := by
  simp [h]

/-- Fixed-point lemma: a table whose rows all carry the target, whose columns
are NA-free, and which has no all-zero numeric non-target column, passes
through `clean_data` unchanged (for a nonnegative NA threshold). -/
theorem clean_data_fix (u : CTable) (target : String) (a z : ℚ)
    (h0 : 0 ≤ a)
    (h1 : ∀ r ∈ u.rows, (cellVal r target).isSome = true)
    (h2 : ∀ c ∈ u.cols, naCount u.rows c.name = 0)
    (h3 : srcAllZeroCols u.cols u.rows target = []) :
    clean_data u target a z = u := by
  unfold clean_data
  dsimp only
  have hc1 : u.rows.filter (fun r => (cellVal r target).isSome) = u.rows :=
    List.filter_eq_self.mpr h1
  rw [hc1]
  have hhigh : srcHighNACols u.rows u.cols a = [] := by
    unfold srcHighNACols
    have hf : u.cols.filter (fun c => gtThr (naProp u.rows c.name) a) = [] := by
      rw [List.filter_eq_nil_iff]
      intro c hc
      rw [gtThr_naProp, h2 c hc]
      simp only [Nat.cast_zero, zero_div, Bool.and_eq_true, decide_eq_true_eq, not_and]
      intro _
      exact not_lt.mpr h0
    rw [hf]
    rfl
  rw [hhigh, dropColsByName_nil]
  rw [h3, dropColsByName_nil]
  have hrows : u.rows.filter (fun r =>
      ((u.cols.filter (fun c => !(c.name == target))).map (·.name)).all
        (fun c => (cellVal r c).isSome)) = u.rows := by
    rw [List.filter_eq_self]
    intro r hr
    rw [List.all_eq_true]
    intro cn hcn
    rw [List.mem_map] at hcn
    obtain ⟨c, hcmem, rfl⟩ := hcn
    exact naCount_eq_zero.mp (h2 c (List.mem_filter.mp hcmem).1) r hr
  rw [hrows]

/-- Every surviving row of `clean_data` still carries its target value: the
target column is dropped by neither column step (its NA count is zero after
step 1) and target-missing rows were dropped in step 1. -/
theorem out_target_isSome (data : CTable) (target : String) (a z : ℚ) (h0 : 0 ≤ a) :
    ∀ r ∈ (clean_data data target a z).rows, (cellVal r target).isSome = true := by
  unfold clean_data dropColsByName
  dsimp only
  intro r hr
  have hr3 := (List.mem_filter.mp hr).1
  rw [List.map_map, List.mem_map] at hr3
  obtain ⟨r1, hr1, rfl⟩ := hr3
  have hmem1 := List.mem_filter.mp hr1
  have hna : naCount (data.rows.filter (fun r => (cellVal r target).isSome)) target = 0 :=
    naCount_eq_zero.mpr (fun r hr => (List.mem_filter.mp hr).2)
  simp only [Function.comp]
  have hz : ∀ x ∈ (r1.filter (fun p =>
      !((srcHighNACols (data.rows.filter (fun r => (cellVal r target).isSome)) data.cols a).contains p.1))),
      x.1 = target →
      (!((srcAllZeroCols
        (data.cols.filter (fun c =>
          !((srcHighNACols (data.rows.filter (fun r => (cellVal r target).isSome)) data.cols a).contains c.name)))
        ((data.rows.filter (fun r => (cellVal r target).isSome)).map (fun r => r.filter (fun p =>
          !((srcHighNACols (data.rows.filter (fun r => (cellVal r target).isSome)) data.cols a).contains p.1))))
        target).contains x.1)) = true := by
    intro x _ hxt
    rw [hxt, contains_eq_false_of_not_mem target_not_mem_srcAllZeroCols]
    rfl
  rw [cellVal_filter _ _ _ hz]
  have hh : ∀ x ∈ r1, x.1 = target →
      (!((srcHighNACols (data.rows.filter (fun r => (cellVal r target).isSome)) data.cols a).contains x.1)) = true := by
    intro x _ hxt
    rw [hxt, contains_eq_false_of_not_mem (not_mem_srcHighNACols h0 hna)]
    rfl
  rw [cellVal_filter _ _ _ hh]
  exact hmem1.2

/-- Every column of the `clean_data` output is NA-free on the output rows:
predictors by the final row drop, the target by step 1. -/
theorem out_no_na (data : CTable) (target : String) (a z : ℚ) (h0 : 0 ≤ a) :
    ∀ c ∈ (clean_data data target a z).cols,
      naCount (clean_data data target a z).rows c.name = 0 := by
  intro c hc
  apply naCount_eq_zero.mpr
  intro r hr
  by_cases hct : c.name = target
  · rw [hct]
    exact out_target_isSome data target a z h0 r hr
  · revert hc hr
    unfold clean_data dropColsByName
    dsimp only
    intro hc hr
    have hp5 := (List.mem_filter.mp hr).2
    rw [List.all_eq_true] at hp5
    apply hp5
    rw [List.mem_map]
    exact ⟨c, List.mem_filter.mpr ⟨hc, by simpa using hct⟩, rfl⟩

/-- The projection applied to each surviving row by `clean_data`: the cells of
columns dropped in steps 2 and 3 are removed. -/
def cleanRowProj (data : CTable) (target : String) (a : ℚ) : CRow → CRow :=
  fun r =>
    (r.filter (fun p =>
      !((srcHighNACols (data.rows.filter (fun r => (cellVal r target).isSome)) data.cols a).contains p.1))).filter
      (fun p =>
        !((srcAllZeroCols
          (data.cols.filter (fun c =>
            !((srcHighNACols (data.rows.filter (fun r => (cellVal r target).isSome)) data.cols a).contains c.name)))
          ((data.rows.filter (fun r => (cellVal r target).isSome)).map (fun r => r.filter (fun p =>
            !((srcHighNACols (data.rows.filter (fun r => (cellVal r target).isSome)) data.cols a).contains p.1))))
          target).contains p.1))

/-- C9 (amended): The `clean_data` output's columns are a subsequence of
the input's columns, and its rows are a subsequence of the input's rows (each
surviving row being the input row with the cells of dropped columns removed).
`clean_data` is idempotent whenever (`na_threshold ≥ 0` and) its output has no
all-zero numeric non-target column; the final row drop can create such a
column, in which case a second application additionally drops it, so
idempotence does not hold unconditionally. -/
theorem clean_data_shrinks_idem (data : CTable) (target : String) (a z : ℚ) :
    (clean_data data target a z).cols.Sublist data.cols
    ∧ ((∀ r, (cleanRowProj data target a r).Sublist r) ∧
        (clean_data data target a z).rows.Sublist (data.rows.map (cleanRowProj data target a)))
    ∧ (0 ≤ a →
        srcAllZeroCols (clean_data data target a z).cols (clean_data data target a z).rows target = [] →
        clean_data (clean_data data target a z) target a z = clean_data data target a z) := by
  refine ⟨?_, ⟨fun r => (List.filter_sublist _).trans (List.filter_sublist _), ?_⟩, ?_⟩
  · unfold clean_data dropColsByName
    dsimp only
    exact (List.filter_sublist _).trans (List.filter_sublist _)
  · unfold clean_data dropColsByName cleanRowProj
    dsimp only
    refine (List.filter_sublist _).trans ?_
    rw [List.map_map]
    exact List.Sublist.map _ (List.filter_sublist _)
  · intro h0 hz
    exact clean_data_fix _ target a z h0
      (out_target_isSome data target a z h0) (out_no_na data target a z h0) hz

/-- A table on which `clean_data` is not idempotent: dropping the row with the
missing `D` value (step 5) leaves column `C` all-zero, which only the second
application drops. -/
def cexTable : CTable :=
  ⟨[⟨"WL", false⟩, ⟨"C", true⟩, ⟨"D", true⟩],
   [[("WL", some 1), ("C", some 1), ("D", none)],
    [("WL", some 1), ("C", some 0), ("D", some 5)]]⟩

/-- C9 (counterexample): `clean_data` is not idempotent: re-running it on
its own output (same parameters) drops the now all-zero column `C`. -/
theorem clean_data_not_idempotent :
    clean_data (clean_data cexTable "WL" (1/2) (19/20)) "WL" (1/2) (19/20) ≠
      clean_data cexTable "WL" (1/2) (19/20) := by
  with_unfolding_all decide

/-- A table on which the conditional-idempotence hypotheses of C9 hold. -/
def idemTable : CTable :=
  ⟨[⟨"WL", false⟩, ⟨"C", true⟩], [[("WL", some 1), ("C", some 2)]]⟩

/-- Witness for C9: the idempotence hypotheses are discharged at a concrete
table. -/
theorem clean_data_shrinks_idem_witness :
    clean_data (clean_data idemTable "WL" (1/2) (19/20)) "WL" (1/2) (19/20) =
      clean_data idemTable "WL" (1/2) (19/20) :=
  (clean_data_shrinks_idem idemTable "WL" (1/2) (19/20)).2.2 (by norm_num)
    (by with_unfolding_all decide)

/-! Module eda.py -/

/-- A game-log row as `get_league_game_log` handles it: its `GAME_ID` and its
`GAME_DATE` (modelled as days since an epoch). -/
structure EdaRow where
  gameId : Nat
  date : Nat
  deriving DecidableEq, Repr

/-- Model of `pd.to_datetime(cached['GAME_DATE']).max()` (0 for an empty cache). -/
def maxDate (l : List EdaRow) : Nat :=
  (l.map (·.date)).foldr max 0

/-- The date order used by `sort_values('GAME_DATE')`. -/
def dateLE (a b : EdaRow) : Prop :=
  a.date ≤ b.date

instance : DecidableRel dateLE :=
  fun a b => inferInstanceAs (Decidable (a.date ≤ b.date))

instance : IsTotal EdaRow dateLE :=
  ⟨fun a b => Nat.le_total a.date b.date⟩

instance : IsTrans EdaRow dateLE :=
  ⟨fun _ _ _ hab hbc => Nat.le_trans hab hbc⟩

/-- The reconciliation step of `get_league_game_log`: the fetched rows whose
`GAME_ID` is not yet cached are appended to the cache and the result sorted by
date; when there is no new game the cached data is used as-is.  (The sort is
modelled by a correct sorting algorithm; the properties proved about it —
permutation and sortedness — do not depend on which one `sort_values` uses.) -/
def mergeStep (cached new_data : List EdaRow) : List EdaRow :=
  let new_games := new_data.filter (fun r => !((cached.map (·.gameId)).contains r.gameId))
  if 0 < new_games.length then
    List.insertionSort dateLE (cached ++ new_games)
  else
    cached

/-- The fetch, merge and fallback logic of `get_league_game_log` after the
cache-currency check: on success reconcile with the loaded cache (if any), on
failure return the loaded cache, else the cache file's contents, else
propagate the failure. -/
def fetchAndReconcile (cached_data cache_file : Option (List EdaRow))
    (fetch : Except String (List EdaRow)) : Except String (List EdaRow) :=
  match fetch with
  | Except.ok new_data =>
    match cached_data with
    | some c => Except.ok (mergeStep c new_data)
    | none => Except.ok new_data
  | Except.error e =>
    match cached_data with
    | some c => Except.ok c
    | none =>
      match cache_file with
      | some c => Except.ok c
      | none => Except.error e

/-- Model of `get_league_game_log` from `eda.py`.  `cache_file` is the contents of
`game_log_{season}.pkl` when the file exists; `today` is
`datetime.now().date()`; `fetch` is the outcome of the external
`LeagueGameLog` call.  (Rows always carry a date here, so the source's
no-`GAME_DATE`-column branches collapse to the dated ones.) -/
def get_league_game_log (use_cache force_refresh : Bool)
    (cache_file : Option (List EdaRow)) (today : Nat)
    (fetch : Except String (List EdaRow)) : Except String (List EdaRow) :=
  let cached_data : Option (List EdaRow) :=
    if use_cache && cache_file.isSome && !force_refresh then cache_file else none
  match cached_data with
  | some c =>
    if maxDate c < today then fetchAndReconcile (some c) cache_file fetch
    else Except.ok c
  | none => fetchAndReconcile none cache_file fetch

/-- C7: When the external fetch fails, `get_league_game_log` returns the
cached season data whenever a cache exists (stale-but-available) and
propagates the failure when none does. -/
theorem get_league_game_log_fetch_failure (use_cache force_refresh : Bool)
    (cache_file : Option (List EdaRow)) (today : Nat) (e : String) :
    get_league_game_log use_cache force_refresh cache_file today (Except.error e) =
      match cache_file with
      | some c => Except.ok c
      | none => Except.error e := by
  unfold get_league_game_log fetchAndReconcile
  cases cache_file with
  | none => cases use_cache <;> cases force_refresh <;> simp
  | some c =>
    cases use_cache <;> cases force_refresh <;> simp <;> split <;> rfl

/-- C5 (counterexample): A cache stored in non-date order merged with a
fetch contributing no new game is returned unchanged, hence not sorted by
date: the reconciliation result is not always sorted. -/
theorem mergeStep_unsorted_counterexample :
    mergeStep [⟨1, 5⟩, ⟨2, 3⟩] [⟨1, 5⟩] = [⟨1, 5⟩, ⟨2, 3⟩]
    ∧ ¬ List.Sorted dateLE [(⟨1, 5⟩ : EdaRow), ⟨2, 3⟩] := by
  constructor
  · rfl
  · intro h
    have := List.rel_of_sorted_cons h ⟨2, 3⟩ (List.mem_singleton_self _)
    exact absurd this (by decide)

/-- C5 (amended): The reconciliation step returns exactly the union keyed
by `GAME_ID`: a permutation of the cached rows plus the fetched rows with
uncached ids (every cached row kept, each fresh fetched row appended, no
cached game duplicated); the result is sorted by date whenever at least one
new row is appended, and is the cached dataset returned in its stored order
when the fetch contributes nothing new. -/
theorem mergeStep_spec (cached new_data : List EdaRow) :
    (mergeStep cached new_data).Perm
      (cached ++ new_data.filter (fun r => !((cached.map (·.gameId)).contains r.gameId)))
    ∧ (0 < (new_data.filter (fun r => !((cached.map (·.gameId)).contains r.gameId))).length →
        List.Sorted dateLE (mergeStep cached new_data))
    ∧ ((new_data.filter (fun r => !((cached.map (·.gameId)).contains r.gameId))).length = 0 →
        mergeStep cached new_data = cached) := by
  unfold mergeStep
  dsimp only
  rcases Nat.eq_zero_or_pos
      (new_data.filter (fun r => !((cached.map (·.gameId)).contains r.gameId))).length
    with h | h
  · rw [if_neg (by omega)]
    refine ⟨?_, ?_, fun _ => rfl⟩
    · rw [List.length_eq_zero.mp h]
      simp
    · intro hpos
      exact absurd h (by omega)
  · rw [if_pos h]
    refine ⟨List.perm_insertionSort dateLE _, fun _ => List.sorted_insertionSort dateLE _, ?_⟩
    intro h0
    exact absurd h0 (by omega)

/-- A two-game cache and a three-game fetch overlapping it, for the C5
witness. -/
def cacheAB : List EdaRow :=
  [⟨1, 1⟩, ⟨2, 2⟩]

/-- The fetch result {A, B, C} for the C5 witness. -/
def fetchABC : List EdaRow :=
  [⟨1, 1⟩, ⟨2, 2⟩, ⟨3, 3⟩]

/-- Witness for C5: cache {A, B} merged with fetch {A, B, C} is exactly
{A, B, C} (sorted, no duplicate of A or B). -/
theorem mergeStep_spec_witness :
    mergeStep cacheAB fetchABC = [⟨1, 1⟩, ⟨2, 2⟩, ⟨3, 3⟩]
    ∧ List.Sorted dateLE (mergeStep cacheAB fetchABC)
    ∧ (mergeStep cacheAB fetchABC).Perm
        (cacheAB ++ fetchABC.filter
          (fun r => !((cacheAB.map (fun x => x.gameId)).contains r.gameId))) :=
  ⟨rfl, (mergeStep_spec cacheAB fetchABC).2.1 (by decide),
    (mergeStep_spec cacheAB fetchABC).1⟩

/-! Module preprocessing.py -/

/-- A raw game-log row as `preprocessing.py` handles it: identifiers, a date,
and the named numeric statistics (total function: every statistic reads as a
rational; column presence is tracked by the dataset's column list). -/
structure DataRow where
  gameId : Nat
  teamId : Nat
  date : Nat
  stats : String → ℚ

instance : Inhabited DataRow :=
  ⟨⟨0, 0, 0, fun _ => 0⟩⟩

/-- A dataset: its column names and its rows. -/
structure Dataset where
  cols : List String
  rows : List DataRow

/-- One entry of `features_config.json`'s `feature_types`. -/
structure FeatureType where
  name : String
  enabled : Bool
  suffix : String
  column_name : Option String

/-- The feature catalog `features_config.json`. -/
structure Config where
  rolling_window : Nat
  stat_columns : List String
  season_column : String
  feature_types : List FeatureType
  additional_features : List String

/-- The `sort_values(["TEAM_ID", "GAME_DATE"])` order. -/
def lexLE (a b : DataRow) : Prop :=
  a.teamId < b.teamId ∨ (a.teamId = b.teamId ∧ a.date ≤ b.date)

instance : DecidableRel lexLE :=
  fun a b => inferInstanceAs (Decidable (_ ∨ _))

instance : IsTotal DataRow lexLE :=
  ⟨fun a b => by unfold lexLE; omega⟩

instance : IsTrans DataRow lexLE :=
  ⟨fun a b c hab hbc => by unfold lexLE at hab hbc ⊢; omega⟩

/-- Sorting `data.sort_values(["TEAM_ID", "GAME_DATE"])` (modelled by a correct
sorting algorithm for that order). -/
def sortRows (rows : List DataRow) : List DataRow :=
  List.insertionSort lexLE rows

/-- Model of `[col for col in config["stat_columns"] if col in data.columns]`. -/
def statCols (data : Dataset) (config : Config) : List String :=
  config.stat_columns.filter (fun c => data.cols.contains c)

/-- Model of `x.shift(1).rolling(window=w, min_periods=1).mean()` on one team's series:
positionwise, the window of the last `w` entries of the shifted series, its
non-missing observations averaged, `none` when no observation is in range. -/
def shiftedRolling (w : Nat) (xs : List ℚ) : List (Option ℚ) :=
  let shifted : List (Option ℚ) := (none :: xs.map some).take xs.length
  (List.range xs.length).map (fun j =>
    let window := (shifted.take (j + 1)).drop (j + 1 - w)
    let obs := window.filterMap id
    if obs.isEmpty then none else some (obs.sum / obs.length))

/-- Position of row `i` inside its team's group (how many earlier rows of the
sorted data share its team). -/
def teamIdx (s : List DataRow) (i : Nat) (tid : Nat) : Nat :=
  ((s.take i).filter (fun x => x.teamId == tid)).length

/-- The series `data.groupby("TEAM_ID")[c]` for one team, in data order. -/
def groupVals (s : List DataRow) (tid : Nat) (c : String) : List ℚ :=
  (s.filter (fun x => x.teamId == tid)).map (fun x => x.stats c)

/-- The value `groupby("TEAM_ID")[c].transform(lambda x: x.shift(1)
.rolling(window=w, min_periods=1).mean())` assigns to the row at position `i`
of the sorted data: the shifted rolling mean of its team's series, taken at
the row's position within its group. -/
def transformVal (s : List DataRow) (w : Nat) (c : String) (i : Nat) : Option ℚ :=
  let r := s.getD i default
  (shiftedRolling w (groupVals s r.teamId c)).getD (teamIdx s i r.teamId) none

/-- The feature columns one enabled `rolling_avg` entry contributes: for each
statistic, the column `stat ++ suffix` holding the per-row transform values. -/
def featuresFor (s : List DataRow) (w : Nat) (stat_cols : List String)
    (suffix : String) : List (String × List (Option ℚ)) :=
  stat_cols.map (fun c => (c ++ suffix, (List.range s.length).map (transformVal s w c)))

/-- The `for feature_type in config["feature_types"]` loop of
`create_pregame_features`: disabled entries are skipped, `rolling_avg`
entries contribute their feature columns, and any other name raises
`ValueError(f"Invalid feature type: ...")`. -/
def buildFeatures (s : List DataRow) (w : Nat) (stat_cols : List String) :
    List FeatureType → Except String (List (String × List (Option ℚ)))
  | [] => Except.ok []
  | ft :: rest =>
    if !ft.enabled then buildFeatures s w stat_cols rest
    else if ft.name == "rolling_avg" then
      match buildFeatures s w stat_cols rest with
      | Except.ok others => Except.ok (featuresFor s w stat_cols ft.suffix ++ others)
      | Except.error e => Except.error e
    else Except.error ("Invalid feature type: " ++ ft.name)

/-- Model of `create_pregame_features` from `preprocessing.py`: sort by team and date,
build the configured pre-game feature columns, and pair every (sorted) row
with its derived feature cells.  (The source also carries the raw columns
along and drops a leftover `WIN` column; neither affects the derived feature
values, which is what the result captures, row by row.) -/
def create_pregame_features (data : Dataset) (config : Config) :
    Except String (List (DataRow × List (String × Option ℚ))) :=
  let s := sortRows data.rows
  match buildFeatures s config.rolling_window (statCols data config) config.feature_types with
  | Except.error e => Except.error e
  | Except.ok feats =>
    Except.ok (s.enum.map (fun p => (p.2, feats.map (fun q => (q.1, q.2.getD p.1 none)))))

/-- Model of `get_feature_columns` from `preprocessing.py`: the configured pre-game
feature columns present in the data, then the additional features, then the
`OPP_`-prefixed variants present in the data.  An unrecognized feature-type
name lands in the `else` branch, which just looks up `column_name`. -/
def get_feature_columns (data : Dataset) (config : Config) : List String :=
  let base := config.feature_types.flatMap (fun ft =>
    if !ft.enabled then []
    else if ft.name == "rolling_avg" || ft.name == "season_avg" then
      (config.stat_columns.map (fun c => c ++ ft.suffix)).filter (fun c => data.cols.contains c)
    else
      match ft.column_name with
      | some c => if data.cols.contains c then [c] else []
      | none => [])
  let feature_cols := base ++ config.additional_features.filter (fun c => data.cols.contains c)
  feature_cols ++ (feature_cols.map (fun c => "OPP_" ++ c)).filter (fun c => data.cols.contains c)

/-- The columns `add_opponent_features` copies from the opponent: the enabled
rolling-average columns present in the data plus the additional features
present in the data. -/
def oppColumns (data : Dataset) (config : Config) : List String :=
  (config.feature_types.flatMap (fun ft =>
    if !ft.enabled then []
    else if ft.name == "rolling_avg" then
      (config.stat_columns.map (fun c => c ++ ft.suffix)).filter (fun c => data.cols.contains c)
    else []))
  ++ config.additional_features.filter (fun c => data.cols.contains c)

/-- Model of `add_opponent_features` from `preprocessing.py`: self-merge on `GAME_ID`
(for each row, every row of the same game in data order), keep the pairs whose
`TEAM_ID` differs, and attach the opponent's columns under `OPP_` names. -/
def add_opponent_features (data : Dataset) (config : Config) :
    List (DataRow × List (String × ℚ)) :=
  let opp_columns := oppColumns data config
  data.rows.flatMap (fun r =>
    ((data.rows.filter (fun o => o.gameId == r.gameId)).filter
        (fun o => !(o.teamId == r.teamId))).map
      (fun o => (r, opp_columns.map (fun c => ("OPP_" ++ c, o.stats c)))))

/-- All-zero statistics, for concrete example rows. -/
def zeroStats : String → ℚ :=
  fun _ => 0

/-- A dataset whose single `game_id` (7) has three distinct team rows. -/
def threeTeamRows : Dataset :=
  ⟨[], [⟨7, 1, 0, zeroStats⟩, ⟨7, 2, 0, zeroStats⟩, ⟨7, 3, 0, zeroStats⟩]⟩

/-- An empty catalog (no feature types, no additional features). -/
def cfgEmpty : Config :=
  ⟨5, [], "SEASON", [], []⟩

/-- C2 (counterexample): On a `game_id` with three distinct team rows,
`add_opponent_features` raises nothing: it silently returns two opponent rows
per original row (six in all). -/
theorem add_opponent_three_rows_no_fault :
    (add_opponent_features threeTeamRows cfgEmpty).length = 6
    ∧ (add_opponent_features threeTeamRows cfgEmpty).map (fun p => p.1.teamId) =
        [1, 1, 2, 2, 3, 3] := by
  constructor <;> rfl

/-- C2 (amended): `add_opponent_features` never signals a data-integrity
fault: for every input it returns, for each original row, exactly one output
row per other row of the same game (same `game_id`, different `team_id`) —
so a `game_id` with three distinct team rows silently yields two opponent
rows per original row instead of an error. -/
theorem add_opponent_row_count (data : Dataset) (config : Config) :
    (add_opponent_features data config).length =
      (data.rows.map (fun r =>
        ((data.rows.filter (fun o => o.gameId == r.gameId)).filter
          (fun o => !(o.teamId == r.teamId))).length)).sum := by
  unfold add_opponent_features
  rw [List.length_flatMap]
  congr 1
  apply List.map_congr_left
  intro r _
  simp [Function.comp]

/-- A catalog whose only feature-type entry has an unrecognized name. -/
def bogusFt : FeatureType :=
  ⟨"bogus", true, "_R", none⟩

/-- Catalog containing only the unrecognized entry. -/
def cfgBogus : Config :=
  ⟨5, ["PTS"], "SEASON", [bogusFt], []⟩

/-- A small dataset for the C4 counterexample. -/
def dataBogus : Dataset :=
  ⟨["PTS"], []⟩

/-- C4 (counterexample): On a catalog with an unrecognized feature-type
name, `get_feature_columns` does not fail — it returns an ordinary (here
empty) column list — while `create_pregame_features` does raise the
configuration error; so it is false that both fail. -/
theorem get_feature_columns_no_fail :
    get_feature_columns dataBogus cfgBogus = []
    ∧ create_pregame_features dataBogus cfgBogus =
        Except.error "Invalid feature type: bogus" := by
  constructor <;> rfl

theorem buildFeatures_error (s : List DataRow) (w : Nat) (stat_cols : List String)
    (l : List FeatureType) (ft : FeatureType) (hmem : ft ∈ l)
    (hen : ft.enabled = true) (hname : ft.name ≠ "rolling_avg") :
    ∃ msg, buildFeatures s w stat_cols l = Except.error msg := by
  induction l with
  | nil => exact absurd hmem (List.not_mem_nil ft)
  | cons a rest ih =>
    rcases List.mem_cons.mp hmem with rfl | hmem'
    · rw [buildFeatures]
      rw [hen]
      have : (ft.name == "rolling_avg") = false := by simpa using hname
      rw [this]
      exact ⟨_, rfl⟩
    · cases ha : a.enabled with
      | false => rw [buildFeatures, ha]; exact ih hmem'
      | true =>
        obtain ⟨msg, hmsg⟩ := ih hmem'
        rw [buildFeatures, ha]
        cases han : (a.name == "rolling_avg") with
        | true => rw [hmsg]; exact ⟨msg, rfl⟩
        | false => exact ⟨_, rfl⟩

/-- C4 (amended): A catalog containing an enabled feature-type entry
with an unrecognized name makes `create_pregame_features` fail with the
configuration error; `get_feature_columns`, by contrast, never fails on such
an entry — it treats it as a special-column entry, contributing nothing when
the entry has no `column_name` (as shown here for a catalog consisting of
that entry alone). -/
theorem create_pregame_config_error (data : Dataset) (config : Config)
    (ft : FeatureType) (hmem : ft ∈ config.feature_types)
    (hen : ft.enabled = true) (hname : ft.name ≠ "rolling_avg") :
    (∃ msg, create_pregame_features data config = Except.error msg)
    ∧ (∀ config2 : Config, config2.feature_types = [ft] →
        ft.name ≠ "season_avg" → ft.column_name = none →
        get_feature_columns data config2 =
          config2.additional_features.filter (fun c => data.cols.contains c) ++
            ((config2.additional_features.filter (fun c => data.cols.contains c)).map
              (fun c => "OPP_" ++ c)).filter (fun c => data.cols.contains c)) := by
  constructor
  · obtain ⟨msg, hmsg⟩ :=
      buildFeatures_error (sortRows data.rows) config.rolling_window
        (statCols data config) config.feature_types ft hmem hen hname
    refine ⟨msg, ?_⟩
    unfold create_pregame_features
    dsimp only
    rw [hmsg]
  · intro config2 hft2 hns hcn
    unfold get_feature_columns
    rw [hft2]
    simp [hen, hname, hns, hcn]

/-- Witness for C4: the amended claim applied to the concrete bogus catalog. -/
theorem create_pregame_config_error_witness :
    (∃ msg, create_pregame_features dataBogus cfgBogus = Except.error msg) :=
  (create_pregame_config_error dataBogus cfgBogus bogusFt (List.mem_singleton_self _)
    rfl (by decide)).1

/-- Under the exactly-two-rows-per-game precondition, each row's same-game,
different-team filter is a single opponent row. -/
theorem opponent_filter_singleton (data : Dataset)
    (H : ∀ g ∈ data.rows.map (fun r => r.gameId), ∃ a b : DataRow,
      a.teamId ≠ b.teamId ∧ data.rows.filter (fun x => x.gameId == g) = [a, b]) :
    ∀ r ∈ data.rows, ∃ o, o ∈ data.rows ∧ o.gameId = r.gameId ∧ o.teamId ≠ r.teamId ∧
      (data.rows.filter (fun x => x.gameId == r.gameId)).filter
        (fun o => !(o.teamId == r.teamId)) = [o] := by
  intro r hr
  obtain ⟨a, b, hab, hfil⟩ := H r.gameId (List.mem_map.mpr ⟨r, hr, rfl⟩)
  have hra : a ∈ data.rows ∧ (a.gameId == r.gameId) = true := by
    have : a ∈ data.rows.filter (fun x => x.gameId == r.gameId) := by
      rw [hfil]; exact List.mem_cons_self a [b]
    exact ⟨(List.mem_filter.mp this).1, (List.mem_filter.mp this).2⟩
  have hrb : b ∈ data.rows ∧ (b.gameId == r.gameId) = true := by
    have : b ∈ data.rows.filter (fun x => x.gameId == r.gameId) := by
      rw [hfil]; exact List.mem_cons_of_mem a (List.mem_singleton_self b)
    exact ⟨(List.mem_filter.mp this).1, (List.mem_filter.mp this).2⟩
  have hrmem : r ∈ data.rows.filter (fun x => x.gameId == r.gameId) :=
    List.mem_filter.mpr ⟨hr, by simp⟩
  rw [hfil] at hrmem
  rw [hfil]
  rcases List.mem_cons.mp hrmem with rfl | hrb'
  · refine ⟨b, hrb.1, by simpa using hrb.2, fun hbt => hab hbt.symm, ?_⟩
    have h1 : (!(r.teamId == r.teamId)) = false := by simp
    have h2 : (!(b.teamId == r.teamId)) = true := by
      simp only [Bool.not_eq_true']
      simpa using fun hbt => hab hbt.symm
    simp [List.filter_cons, h1, h2]
  · have hbr : r = b := List.mem_singleton.mp hrb'
    rw [← hbr] at hab
    rw [← hbr]
    refine ⟨a, hra.1, by simpa using hra.2, fun hat => hab hat, ?_⟩
    have h1 : (!(r.teamId == r.teamId)) = false := by simp
    have h2 : (!(a.teamId == r.teamId)) = true := by
      simp only [Bool.not_eq_true']
      simpa using hab
    simp [List.filter_cons, h1, h2]

/-- Positional description of a `flatMap` all of whose blocks are
singletons. -/
theorem flatMap_singleton_get {α β : Type} (l : List α) (f : α → List β)
    (h : ∀ x ∈ l, ∃ y, f x = [y]) :
    (l.flatMap f).length = l.length
    ∧ ∀ i x, l.get? i = some x → ∃ y, f x = [y] ∧ (l.flatMap f).get? i = some y := by
  induction l with
  | nil => exact ⟨rfl, fun i x hx => by simp at hx⟩
  | cons a rest ih =>
    obtain ⟨y, hy⟩ := h a (List.mem_cons_self a rest)
    obtain ⟨ihlen, ihget⟩ := ih (fun x hx => h x (List.mem_cons_of_mem a hx))
    have hcons : (a :: rest).flatMap f = y :: rest.flatMap f := by
      rw [List.flatMap_cons, hy]
      rfl
    constructor
    · rw [hcons]
      simp [ihlen]
    · intro i x hx
      cases i with
      | zero =>
        rw [List.get?_cons_zero] at hx
        cases hx
        exact ⟨y, hy, by rw [hcons]; rfl⟩
      | succ i =>
        rw [List.get?_cons_succ] at hx
        obtain ⟨y2, hy2, hget2⟩ := ihget i x hx
        exact ⟨y2, hy2, by rw [hcons, List.get?_cons_succ]; exact hget2⟩

/-- C3: When every `game_id` has exactly two distinct `team_id` rows,
`add_opponent_features` keeps exactly one row per original row (in order),
and on the row of team X of a game with teams X and Y every mirrored column
`OPP_<c>` carries the value of `<c>` on Y's row of the same game — and
symmetrically, since the statement covers every row. -/
theorem add_opponent_mirrors (data : Dataset) (config : Config)
    (H : ∀ g ∈ data.rows.map (fun r => r.gameId), ∃ a b : DataRow,
      a.teamId ≠ b.teamId ∧ data.rows.filter (fun x => x.gameId == g) = [a, b]) :
    (add_opponent_features data config).length = data.rows.length
    ∧ ∀ i r, data.rows.get? i = some r →
        ∃ o, o ∈ data.rows ∧ o.gameId = r.gameId ∧ o.teamId ≠ r.teamId ∧
          (add_opponent_features data config).get? i =
            some (r, (oppColumns data config).map (fun c => ("OPP_" ++ c, o.stats c))) := by
  have hsing := opponent_filter_singleton data H
  have hblocks : ∀ r ∈ data.rows, ∃ y,
      (fun r => ((data.rows.filter (fun o => o.gameId == r.gameId)).filter
          (fun o => !(o.teamId == r.teamId))).map
        (fun o => (r, (oppColumns data config).map (fun c => ("OPP_" ++ c, o.stats c))))) r
        = [y] := by
    intro r hr
    obtain ⟨o, _, _, _, hfil⟩ := hsing r hr
    refine ⟨(r, (oppColumns data config).map (fun c => ("OPP_" ++ c, o.stats c))), ?_⟩
    dsimp only
    rw [hfil]
    rfl
  obtain ⟨hlen, hget⟩ := flatMap_singleton_get data.rows _ hblocks
  unfold add_opponent_features
  constructor
  · exact hlen
  · intro i r hr
    obtain ⟨o, ho, hog, hot, hfil⟩ := hsing r (List.get?_mem hr)
    obtain ⟨y, hy, hgety⟩ := hget i r hr
    refine ⟨o, ho, hog, hot, ?_⟩
    rw [hfil] at hy
    simp only [List.map_cons, List.map_nil, List.cons.injEq, and_true] at hy
    rw [hgety, ← hy]

/-- Two games with two teams each, for the C3 witness. -/
def data4 : Dataset :=
  ⟨["PTS_R"],
   [⟨1, 10, 0, fun _ => 1⟩, ⟨1, 20, 0, fun _ => 2⟩,
    ⟨2, 10, 0, fun _ => 3⟩, ⟨2, 30, 0, fun _ => 4⟩]⟩

/-- A catalog with one enabled rolling-average feature type, suffix `_R`. -/
def cfgR : Config :=
  ⟨3, ["PTS"], "SEASON", [⟨"rolling_avg", true, "_R", none⟩], []⟩

/-- Witness for C3: on a concrete two-team-per-game dataset the first row
(team 10 of game 1) is paired with team 20's values. -/
theorem add_opponent_mirrors_witness :
    (add_opponent_features data4 cfgR).length = data4.rows.length
    ∧ (add_opponent_features data4 cfgR).get? 0 =
        some (⟨1, 10, 0, fun _ => 1⟩,
          (oppColumns data4 cfgR).map
            (fun c => ("OPP_" ++ c, (⟨1, 20, 0, fun _ => 2⟩ : DataRow).stats c))) := by
  have h := add_opponent_mirrors data4 cfgR (by
    intro g hg
    have hg2 : g = 1 ∨ g = 2 := by
      simp only [data4] at hg
      simpa using hg
    rcases hg2 with rfl | rfl
    · exact ⟨⟨1, 10, 0, fun _ => 1⟩, ⟨1, 20, 0, fun _ => 2⟩, by decide, rfl⟩
    · exact ⟨⟨2, 10, 0, fun _ => 3⟩, ⟨2, 30, 0, fun _ => 4⟩, by decide, rfl⟩)
  refine ⟨h.1, ?_⟩
  obtain ⟨o, ho, hog, hot, hget0⟩ := h.2 0 ⟨1, 10, 0, fun _ => 1⟩ rfl
  have ho2 : o = ⟨1, 20, 0, fun _ => 2⟩ := by
    simp only [data4, List.mem_cons, List.not_mem_nil, or_false] at ho
    rcases ho with rfl | rfl | rfl | rfl
    · exact absurd rfl hot
    · rfl
    · exact absurd hog (by decide)
    · exact absurd hog (by decide)
  rw [ho2] at hget0
  exact hget0

/-! Towards C1: characterizing the shifted rolling mean. -/

theorem isEmpty_false_of_length_pos {α : Type} {l : List α} (h : 0 < l.length) :
    l.isEmpty = false := by
  cases l with
  | nil => simp at h
  | cons a l => rfl

/-- The values of the current team's games strictly before position `i` of the
sorted data, in order. -/
def priorVals (s : List DataRow) (i : Nat) (tid : Nat) (c : String) : List ℚ :=
  ((s.take i).filter (fun x => x.teamId == tid)).map (fun x => x.stats c)

/-- Claim wording: the mean of the last `min w |prior|` prior values, missing
when there is no prior value. -/
def trailingMean (w : Nat) (prior : List ℚ) : Option ℚ :=
  if prior.length = 0 then none
  else some ((prior.drop (prior.length - w)).sum / (prior.drop (prior.length - w)).length)

theorem shiftedRolling_getD (w : Nat) (xs : List ℚ) (j : Nat) (hw : 1 ≤ w)
    (hj : j < xs.length) :
    (shiftedRolling w xs).getD j none =
      if j = 0 then none
      else some (((xs.take j).drop (j - w)).sum / ((xs.take j).drop (j - w)).length) := by
  unfold shiftedRolling
  rw [List.getD_eq_getElem?_getD, List.getElem?_map, List.getElem?_range hj]
  simp only [Option.map_some', Option.getD_some]
  have htake : (((none :: xs.map some).take xs.length).take (j + 1)) =
      none :: (xs.take j).map some := by
    rw [List.take_take]
    have hmin : (j + 1) ⊓ xs.length = j + 1 := by omega
    rw [hmin, List.take_succ_cons, ← List.map_take]
  rw [htake]
  have hobs2 : ∀ l : List ℚ, (l.map some).filterMap id = l := by
    intro l
    rw [List.filterMap_map, show (id ∘ (some : ℚ → Option ℚ)) = some ∘ id from rfl,
      List.filterMap_eq_map, List.map_id]
  by_cases hjw : j < w
  · have h0 : j + 1 - w = 0 := by omega
    have h0' : j - w = 0 := by omega
    rw [h0, h0', List.drop_zero, List.drop_zero]
    have hobs : (none :: (xs.take j).map some).filterMap id = xs.take j := by
      rw [List.filterMap_cons]
      exact hobs2 _
    rw [hobs]
    by_cases hj0 : j = 0
    · subst hj0
      simp
    · have hne : (xs.take j).isEmpty = false := by
        apply isEmpty_false_of_length_pos
        rw [List.length_take]
        omega
      rw [hne, if_neg hj0]
      rfl
  · have hge : j + 1 - w = (j - w) + 1 := by omega
    rw [hge, List.drop_succ_cons, ← List.map_drop, hobs2]
    have hne : ((xs.take j).drop (j - w)).isEmpty = false := by
      apply isEmpty_false_of_length_pos
      rw [List.length_drop, List.length_take]
      omega
    have hj0 : ¬ j = 0 := by omega
    rw [hne, if_neg hj0]
    rfl

/-- The transform value at a row is exactly the trailing mean of that team's
prior values. -/
theorem transformVal_eq (s : List DataRow) (w : Nat) (c : String) (i : Nat)
    (r : DataRow) (hw : 1 ≤ w) (hr : s.get? i = some r) :
    transformVal s w c i = trailingMean w (priorVals s i r.teamId c) := by
  rw [List.get?_eq_getElem?] at hr
  obtain ⟨hi, hival⟩ := List.getElem?_eq_some.mp hr
  unfold transformVal
  have hd : s.getD i default = r := by
    rw [List.getD_eq_getElem?_getD, hr]
    rfl
  rw [hd]
  have hsplit : s.filter (fun x => x.teamId == r.teamId) =
      (s.take i).filter (fun x => x.teamId == r.teamId) ++
        r :: (s.drop (i + 1)).filter (fun x => x.teamId == r.teamId) := by
    conv_lhs => rw [← List.take_append_drop i s]
    rw [List.filter_append]
    congr 1
    rw [List.drop_eq_getElem_cons hi, hival, List.filter_cons]
    simp
  have hGsplit : groupVals s r.teamId c =
      priorVals s i r.teamId c ++
        r.stats c :: ((s.drop (i + 1)).filter (fun x => x.teamId == r.teamId)).map
          (fun x => x.stats c) := by
    unfold groupVals priorVals
    rw [hsplit, List.map_append]
    rfl
  have hjlen : teamIdx s i r.teamId = (priorVals s i r.teamId c).length := by
    unfold teamIdx priorVals
    rw [List.length_map]
  have hjG : teamIdx s i r.teamId < (groupVals s r.teamId c).length := by
    rw [hGsplit, hjlen, List.length_append, List.length_cons]
    omega
  have htake : (groupVals s r.teamId c).take (teamIdx s i r.teamId) =
      priorVals s i r.teamId c := by
    rw [hGsplit, hjlen]
    exact List.take_left _ _
  rw [shiftedRolling_getD w (groupVals s r.teamId c) (teamIdx s i r.teamId) hw hjG]
  rw [htake, hjlen]
  rfl

theorem buildFeatures_ok (s : List DataRow) (w : Nat) (stat_cols : List String)
    (l : List FeatureType)
    (hall : ∀ ft ∈ l, ft.enabled = true → ft.name = "rolling_avg") :
    buildFeatures s w stat_cols l =
      Except.ok ((l.filter (fun ft => ft.enabled)).flatMap
        (fun ft => featuresFor s w stat_cols ft.suffix)) := by
  induction l with
  | nil => rfl
  | cons a rest ih =>
    have ih' := ih (fun ft hft hen => hall ft (List.mem_cons_of_mem a hft) hen)
    cases ha : a.enabled with
    | false =>
      rw [buildFeatures, ha, ih']
      simp [List.filter_cons, ha]
    | true =>
      have hname : a.name = "rolling_avg" := hall a (List.mem_cons_self a rest) ha
      rw [buildFeatures, ha, ih']
      simp [List.filter_cons, ha, hname]

/-- The derived feature-column names over all enabled feature types. -/
def derivedNames (config : Config) (stat_cols : List String) : List String :=
  (config.feature_types.filter (fun ft => ft.enabled)).flatMap
    (fun ft => stat_cols.map (fun c => c ++ ft.suffix))

theorem featuresList_keys (s : List DataRow) (w : Nat) (stat_cols : List String)
    (config : Config) :
    ((config.feature_types.filter (fun ft => ft.enabled)).flatMap
        (fun ft => featuresFor s w stat_cols ft.suffix)).map Prod.fst =
      derivedNames config stat_cols := by
  unfold derivedNames featuresFor
  rw [List.map_flatMap]
  congr 1
  funext ft
  rw [List.map_map]
  rfl

theorem lookup_map_getD (l : List (String × List (Option ℚ))) (i : Nat) (k : String) :
    (l.map (fun q => (q.1, q.2.getD i none))).lookup k =
      (l.lookup k).map (fun col => col.getD i none) := by
  induction l with
  | nil => rfl
  | cons a rest ih =>
    rw [List.map_cons]
    cases h : (k == a.1) with
    | true =>
      simp only [List.lookup, h]
      rfl
    | false =>
      simp only [List.lookup, h]
      exact ih

theorem lookup_eq_some_of_nodup {β : Type} (l : List (String × β)) (k : String) (v : β)
    (hnd : (l.map Prod.fst).Nodup) (hmem : (k, v) ∈ l) :
    l.lookup k = some v := by
  induction l with
  | nil => simp at hmem
  | cons a rest ih =>
    rw [List.map_cons] at hnd
    have hnd' := List.nodup_cons.mp hnd
    rcases List.mem_cons.mp hmem with heq | hmem'
    · rw [← heq]
      simp [List.lookup]
    · have hk : k ∈ rest.map Prod.fst := List.mem_map.mpr ⟨(k, v), hmem', rfl⟩
      have hka : (k == a.1) = false := by
        have hne : k ≠ a.1 := fun h => hnd'.1 (h ▸ hk)
        simpa using hne
      simp [List.lookup, hka, ih hnd'.2 hmem']

/-- C1: For a catalog whose enabled feature types are rolling averages
(with distinct derived column names and a positive window), for every enabled
rolling entry and every configured statistic present in the data,
`create_pregame_features` succeeds and assigns row `i` of the
(team, date)-sorted data the derived column `stat ++ suffix` holding the mean
of that team's statistic over the last at-most-`rolling_window` games strictly
before position `i` in that order — `trailingMean` is `none` exactly when the
team has no prior game, and averages whatever fewer-than-window prior games
exist otherwise; the current game's own value never enters. -/
theorem create_pregame_rolling_correct (data : Dataset) (config : Config)
    (ft : FeatureType) (stat : String)
    (hft : ft ∈ config.feature_types) (hen : ft.enabled = true)
    (hall : ∀ ft2 ∈ config.feature_types, ft2.enabled = true → ft2.name = "rolling_avg")
    (hw : 1 ≤ config.rolling_window)
    (hnd : (derivedNames config (statCols data config)).Nodup)
    (hstat : stat ∈ statCols data config) :
    ∃ out, create_pregame_features data config = Except.ok out
      ∧ out.length = data.rows.length
      ∧ (sortRows data.rows).Perm data.rows
      ∧ List.Sorted lexLE (sortRows data.rows)
      ∧ ∀ i r fs, out.get? i = some (r, fs) →
          (sortRows data.rows).get? i = some r
          ∧ fs.lookup (stat ++ ft.suffix) =
              some (trailingMean config.rolling_window
                (priorVals (sortRows data.rows) i r.teamId stat)) := by
  have hbf := buildFeatures_ok (sortRows data.rows) config.rolling_window
    (statCols data config) config.feature_types hall
  refine ⟨(sortRows data.rows).enum.map (fun p => (p.2,
      ((config.feature_types.filter (fun ft2 => ft2.enabled)).flatMap
        (fun ft2 => featuresFor (sortRows data.rows) config.rolling_window
          (statCols data config) ft2.suffix)).map
        (fun q => (q.1, q.2.getD p.1 none)))), ?_, ?_, ?_, ?_, ?_⟩
  · unfold create_pregame_features
    dsimp only
    rw [hbf]
  · rw [List.length_map, List.enum_length]
    exact (List.perm_insertionSort lexLE data.rows).length_eq
  · exact List.perm_insertionSort lexLE data.rows
  · exact List.sorted_insertionSort lexLE data.rows
  · intro i r fs hout
    rw [List.get?_eq_getElem?, List.getElem?_map, List.getElem?_enum] at hout
    cases hs : (sortRows data.rows)[i]? with
    | none => rw [hs] at hout; simp at hout
    | some r0 =>
      rw [hs] at hout
      simp only [Option.map_some'] at hout
      have hpair := Option.some.inj hout
      have hr0 : r0 = r := congrArg Prod.fst hpair
      have hfs : fs = ((config.feature_types.filter (fun ft2 => ft2.enabled)).flatMap
          (fun ft2 => featuresFor (sortRows data.rows) config.rolling_window
            (statCols data config) ft2.suffix)).map
          (fun q => (q.1, q.2.getD i none)) := (congrArg Prod.snd hpair).symm
      constructor
      · rw [List.get?_eq_getElem?, hs, hr0]
      · rw [hfs, lookup_map_getD]
        have hmem : (stat ++ ft.suffix,
            (List.range (sortRows data.rows).length).map
              (transformVal (sortRows data.rows) config.rolling_window stat)) ∈
            (config.feature_types.filter (fun ft2 => ft2.enabled)).flatMap
              (fun ft2 => featuresFor (sortRows data.rows) config.rolling_window
                (statCols data config) ft2.suffix) := by
          apply List.mem_flatMap.mpr
          refine ⟨ft, List.mem_filter.mpr ⟨hft, hen⟩, ?_⟩
          unfold featuresFor
          exact List.mem_map.mpr ⟨stat, hstat, rfl⟩
        have hkeys : (((config.feature_types.filter (fun ft2 => ft2.enabled)).flatMap
            (fun ft2 => featuresFor (sortRows data.rows) config.rolling_window
              (statCols data config) ft2.suffix)).map Prod.fst).Nodup := by
          rw [featuresList_keys]
          exact hnd
        rw [lookup_eq_some_of_nodup _ _ _ hkeys hmem]
        have hi : i < (sortRows data.rows).length := by
          have := List.getElem?_eq_some.mp hs
          exact this.1
        rw [Option.map_some']
        rw [List.getD_eq_getElem?_getD, List.getElem?_map, List.getElem?_range hi]
        simp only [Option.map_some', Option.getD_some]
        rw [transformVal_eq (sortRows data.rows) config.rolling_window stat i r hw]
        rw [List.get?_eq_getElem?, hs, hr0]

/-- One team with three games (PTS 10, 20, 30 on days 1, 2, 3), for the C1
witness. -/
def dataC1 : Dataset :=
  ⟨["PTS"],
   [⟨1, 1, 1, fun _ => 10⟩, ⟨2, 1, 2, fun _ => 20⟩, ⟨3, 1, 3, fun _ => 30⟩]⟩

/-- Witness for C1: the rolling-average catalog `cfgR` applied to a concrete
three-game season. -/
theorem create_pregame_rolling_correct_witness :
    ∃ out, create_pregame_features dataC1 cfgR = Except.ok out
      ∧ out.length = dataC1.rows.length
      ∧ (sortRows dataC1.rows).Perm dataC1.rows
      ∧ List.Sorted lexLE (sortRows dataC1.rows)
      ∧ ∀ i r fs, out.get? i = some (r, fs) →
          (sortRows dataC1.rows).get? i = some r
          ∧ fs.lookup ("PTS" ++ (⟨"rolling_avg", true, "_R", none⟩ : FeatureType).suffix) =
              some (trailingMean cfgR.rolling_window
                (priorVals (sortRows dataC1.rows) i r.teamId "PTS")) :=
  create_pregame_rolling_correct dataC1 cfgR ⟨"rolling_avg", true, "_R", none⟩ "PTS"
    (List.mem_singleton_self _) rfl
    (fun ft2 h2 _ => by rw [List.eq_of_mem_singleton h2])
    (by decide) (by decide) (by decide)

/-! Module get_injuries.py -/

/-- One inactive-player record as returned by the boxscore endpoint. -/
structure InjRow where
  gameId : Nat
  teamId : Nat
  playerId : Nat
  deriving DecidableEq, Repr

/-- Whether `p` starts the list `l`. -/
def chPfx : List Char → List Char → Bool
  | [], _ => true
  | _ :: _, [] => false
  | a :: as, b :: bs => a == b && chPfx as bs

/-- Whether `p` occurs contiguously inside `l` (Python's `in` on strings). -/
def chSub (p : List Char) : List Char → Bool
  | [] => chPfx p []
  | c :: cs => chPfx p (c :: cs) || chSub p cs

/-- The rate-limit classifier of `get_season_game_injuries`:
`error_msg = str(e).lower()` contains `"429"`, `"rate limit"` or
`"too many requests"`. -/
def is_rate_limit_msg (e : String) : Bool :=
  let msg := e.data.map Char.toLower
  chSub "429".data msg || chSub "rate limit".data msg ||
    chSub "too many requests".data msg

/-- The `for attempt in range(max_retries)` retry loop for one game, with
`k` the remaining iterations (started at `max_retries`) and `attempt` the
current index.  On success it returns the fetched rows; on a rate-limited
failure before the last attempt it sleeps `backoff_factor ** (attempt + 1)`
seconds (recorded in the returned delay trace) and retries; on a rate-limited
last attempt, or any other failure, it gives up on the game.  (The source's
`attempt < max_retries - 1` over Python ints equals `attempt + 1 <
max_retries` on every reachable attempt.) -/
def retryAux (fetch : Nat → Except String (List InjRow)) (max_retries : Nat)
    (backoff_factor : ℚ) : Nat → Nat → Option (List InjRow) × List ℚ
  | 0, _ => (none, [])
  | k + 1, attempt =>
    match fetch attempt with
    | Except.ok rows => (some rows, [])
    | Except.error e =>
      if is_rate_limit_msg e then
        if attempt + 1 < max_retries then
          ((retryAux fetch max_retries backoff_factor k (attempt + 1)).1,
            backoff_factor ^ (attempt + 1) ::
              (retryAux fetch max_retries backoff_factor k (attempt + 1)).2)
        else (none, [])
      else (none, [])

/-- The whole per-game retry loop: result and backoff-delay trace. -/
def processGame (fetch : Nat → Except String (List InjRow)) (max_retries : Nat)
    (backoff_factor : ℚ) : Option (List InjRow) × List ℚ :=
  retryAux fetch max_retries backoff_factor max_retries 0

/-- The per-season loop of `get_season_game_injuries`: games already in the
cache are skipped; a game whose retry loop succeeds is added to the processed
set and its rows appended to the season's records (persisted right away); a
game whose retry loop fails is skipped, leaving the records unchanged.
`fetchG g attempt` is the outcome of attempt `attempt` for game `g`. -/
def runSeason (fetchG : Nat → Nat → Except String (List InjRow))
    (max_retries : Nat) (backoff_factor : ℚ) :
    List Nat → List Nat → List InjRow → List InjRow
  | [], _, acc => acc
  | g :: gs, processed, acc =>
    if processed.contains g then runSeason fetchG max_retries backoff_factor gs processed acc
    else
      match (processGame (fetchG g) max_retries backoff_factor).1 with
      | some rows => runSeason fetchG max_retries backoff_factor gs (g :: processed) (acc ++ rows)
      | none => runSeason fetchG max_retries backoff_factor gs processed acc

/-- Running the retry loop past `j` rate-limited failures: the delays
`backoff_factor ^ 1, …, backoff_factor ^ j` accumulate and the loop continues
at attempt `a + j`. -/
theorem retryAux_rl_prefix (fetch : Nat → Except String (List InjRow)) (mr : Nat) (bf : ℚ) :
    ∀ (j k a : Nat), k + a = mr → a + j < mr →
      (∀ i, i < j → ∃ e, fetch (a + i) = Except.error e ∧ is_rate_limit_msg e = true) →
      retryAux fetch mr bf k a =
        ((retryAux fetch mr bf (k - j) (a + j)).1,
          ((List.range j).map (fun i2 => bf ^ (a + i2 + 1))) ++
            (retryAux fetch mr bf (k - j) (a + j)).2) := by
  intro j
  induction j with
  | zero =>
    intro k a hk ha hrl
    simp
  | succ j ih =>
    intro k a hk ha hrl
    obtain ⟨k', rfl⟩ : ∃ k', k = k' + 1 := by
      cases k with
      | zero => exact absurd hk (by omega)
      | succ k2 => exact ⟨k2, rfl⟩
    obtain ⟨e, he, hrle⟩ := hrl 0 (Nat.succ_pos j)
    rw [Nat.add_zero] at he
    rw [retryAux, he]
    dsimp only
    rw [if_pos hrle, if_pos (show a + 1 < mr by omega)]
    have hrec := ih k' (a + 1) (by omega) (by omega) (fun i hi => by
      obtain ⟨e2, he2, hr2⟩ := hrl (i + 1) (by omega)
      exact ⟨e2, by rwa [show a + (i + 1) = a + 1 + i by omega] at he2, hr2⟩)
    rw [hrec]
    have hidx : k' + 1 - (j + 1) = k' - j := by omega
    have hidx2 : a + (j + 1) = a + 1 + j := by omega
    rw [hidx, hidx2]
    refine congrArg (fun d => ((retryAux fetch mr bf (k' - j) (a + 1 + j)).1, d)) ?_
    rw [List.range_succ_eq_map, List.map_cons, List.map_map, List.cons_append]
    refine congrArg₂ (· :: ·) (by rw [Nat.add_zero]) ?_
    refine congrArg (· ++ (retryAux fetch mr bf (k' - j) (a + 1 + j)).2) ?_
    apply List.map_congr_left
    intro i2 _
    show bf ^ (a + 1 + i2 + 1) = bf ^ (a + (i2 + 1) + 1)
    congr 1
    omega

/-- A game whose first `k` attempts are rate-limited and whose attempt `k`
succeeds is fetched with backoffs `bf^1, …, bf^k`. -/
theorem processGame_rl_success (mr : Nat) (bf : ℚ)
    (fetch : Nat → Except String (List InjRow)) (k : Nat) (rows : List InjRow)
    (hrl : ∀ i, i < k → ∃ e, fetch i = Except.error e ∧ is_rate_limit_msg e = true)
    (hk : k < mr) (hok : fetch k = Except.ok rows) :
    processGame fetch mr bf = (some rows, (List.range k).map (fun i => bf ^ (i + 1))) := by
  have h := retryAux_rl_prefix fetch mr bf k mr 0 (by omega) (by omega)
    (fun i hi => by rw [Nat.zero_add]; exact hrl i hi)
  simp only [Nat.zero_add] at h
  have hstep : retryAux fetch mr bf (mr - k) k = (some rows, []) := by
    obtain ⟨m, hm⟩ : ∃ m, mr - k = m + 1 := ⟨mr - k - 1, by omega⟩
    rw [hm, retryAux, hok]
  unfold processGame
  rw [h, hstep]
  simp

/-- A game all `mr` of whose attempts are rate-limited is skipped after the
backoffs `bf^1, …, bf^(mr-1)` (no sleep after the final attempt). -/
theorem processGame_rl_exhausted (mr : Nat) (bf : ℚ)
    (fetch : Nat → Except String (List InjRow))
    (hrl : ∀ i, i < mr → ∃ e, fetch i = Except.error e ∧ is_rate_limit_msg e = true) :
    processGame fetch mr bf = (none, (List.range (mr - 1)).map (fun i => bf ^ (i + 1))) := by
  rcases Nat.eq_zero_or_pos mr with hmr | hmr
  · subst hmr
    rfl
  · have h := retryAux_rl_prefix fetch mr bf (mr - 1) mr 0 (by omega) (by omega)
      (fun i hi => by rw [Nat.zero_add]; exact hrl i (by omega))
    simp only [Nat.zero_add] at h
    obtain ⟨e, he, hrle⟩ := hrl (mr - 1) (by omega)
    have hstep : retryAux fetch mr bf (mr - (mr - 1)) (mr - 1) = (none, []) := by
      rw [show mr - (mr - 1) = 1 by omega, retryAux, he]
      dsimp only
      rw [if_pos hrle, if_neg (show ¬ (mr - 1 + 1 < mr) by omega)]
    unfold processGame
    rw [h, hstep]
    simp

/-- A game whose attempt `k` fails with a non-rate-limited error (after `k`
rate-limited attempts) is skipped right there, with no further backoff. -/
theorem processGame_other_error (mr : Nat) (bf : ℚ)
    (fetch : Nat → Except String (List InjRow)) (k : Nat) (e : String)
    (hrl : ∀ i, i < k → ∃ e2, fetch i = Except.error e2 ∧ is_rate_limit_msg e2 = true)
    (hk : k < mr) (he : fetch k = Except.error e) (hnrl : is_rate_limit_msg e = false) :
    processGame fetch mr bf = (none, (List.range k).map (fun i => bf ^ (i + 1))) := by
  have h := retryAux_rl_prefix fetch mr bf k mr 0 (by omega) (by omega)
    (fun i hi => by rw [Nat.zero_add]; exact hrl i hi)
  simp only [Nat.zero_add] at h
  have hstep : retryAux fetch mr bf (mr - k) k = (none, []) := by
    obtain ⟨m, hm⟩ : ∃ m, mr - k = m + 1 := ⟨mr - k - 1, by omega⟩
    rw [hm, retryAux, he]
    dsimp only
    rw [hnrl]
    simp
  unfold processGame
  rw [h, hstep]
  simp

/-- C6: The injury synchronizer's per-game behaviour: after `k`
rate-limited failures (message containing 429 / rate limit / too many
requests, case-insensitively), (i) a success on attempt `k < max_retries` is
recorded with exponential backoffs `bf^1, …, bf^k`; (ii) if all `max_retries`
attempts are rate-limited the game is skipped non-fatally after backoffs
`bf^1, …, bf^(max_retries-1)`; (iii) a non-rate-limited failure skips the game
right there — no further backoff, and no later attempt is ever consulted
(any fetch agreeing up to attempt `k` gives the same outcome); and at the
season level (iv) a game whose fetch eventually succeeds has its rows
appended and persisted exactly once, even if listed twice, while (v) a game
whose attempts all fail contributes nothing to the persisted records. -/
theorem get_season_game_injuries_retry (mr : Nat) (bf : ℚ)
    (fetch : Nat → Except String (List InjRow)) (k : Nat) (rows : List InjRow)
    (hrl : ∀ i, i < k → ∃ e, fetch i = Except.error e ∧ is_rate_limit_msg e = true) :
    (k < mr → fetch k = Except.ok rows →
      processGame fetch mr bf = (some rows, (List.range k).map (fun i => bf ^ (i + 1))))
    ∧ (k = mr →
      processGame fetch mr bf = (none, (List.range (mr - 1)).map (fun i => bf ^ (i + 1))))
    ∧ (∀ e, k < mr → fetch k = Except.error e → is_rate_limit_msg e = false →
      processGame fetch mr bf = (none, (List.range k).map (fun i => bf ^ (i + 1)))
      ∧ ∀ fetch2 : Nat → Except String (List InjRow), (∀ i, i ≤ k → fetch2 i = fetch i) →
          processGame fetch2 mr bf = (none, (List.range k).map (fun i => bf ^ (i + 1))))
    ∧ (∀ (fetchG : Nat → Nat → Except String (List InjRow)) (g : Nat)
        (processed : List Nat) (acc : List InjRow),
        processed.contains g = false →
        (∀ rows2, (processGame (fetchG g) mr bf).1 = some rows2 →
          runSeason fetchG mr bf [g, g] processed acc = acc ++ rows2)
        ∧ ((processGame (fetchG g) mr bf).1 = none →
          runSeason fetchG mr bf [g] processed acc = acc)) := by
  refine ⟨?_, ?_, ?_, ?_⟩
  · intro hk hok
    exact processGame_rl_success mr bf fetch k rows hrl hk hok
  · intro hkm
    subst hkm
    exact processGame_rl_exhausted k bf fetch hrl
  · intro e hk he hnrl
    refine ⟨processGame_other_error mr bf fetch k e hrl hk he hnrl, ?_⟩
    intro fetch2 hagree
    apply processGame_other_error mr bf fetch2 k e
    · intro i hi
      obtain ⟨e2, he2, hr2⟩ := hrl i hi
      exact ⟨e2, by rw [hagree i (Nat.le_of_lt hi)]; exact he2, hr2⟩
    · exact hk
    · rw [hagree k (Nat.le_refl k)]
      exact he
    · exact hnrl
  · intro fetchG g processed acc hpg
    constructor
    · intro rows2 hsome
      rw [runSeason, hpg, if_neg Bool.false_ne_true, hsome]
      dsimp only
      rw [runSeason, show ((g :: processed).contains g) = true by simp, if_pos rfl]
      rfl
    · intro hnone
      rw [runSeason, hpg, if_neg Bool.false_ne_true, hnone]
      rfl

/-- Rows returned by the example fetch of the C6 witness. -/
def exRows : List InjRow :=
  [⟨100, 5, 77⟩]

/-- A fetch that is rate-limited twice and succeeds on the third attempt. -/
def exFetch : Nat → Except String (List InjRow) :=
  fun attempt =>
    if attempt == 0 then Except.error "HTTP 429 Too Many Requests"
    else if attempt == 1 then Except.error "Rate limit exceeded"
    else Except.ok exRows

/-- Witness for C6: with `max_retries = 3` and `backoff_factor = 2`, a fetch
rate-limited twice then successful is recorded with backoffs 2 s and 4 s, and
its rows are persisted exactly once even when the game is listed twice. -/
theorem get_season_game_injuries_retry_witness :
    processGame exFetch 3 2 = (some exRows, [2, 4])
    ∧ runSeason (fun _ => exFetch) 3 2 [100, 100] [] [] = exRows := by
  have h := get_season_game_injuries_retry 3 2 exFetch 2 exRows (by
    intro i hi
    interval_cases i
    · exact ⟨"HTTP 429 Too Many Requests", rfl, by decide⟩
    · exact ⟨"Rate limit exceeded", rfl, by decide⟩)
  have h1 : processGame exFetch 3 2 =
      (some exRows, (List.range 2).map (fun i => (2 : ℚ) ^ (i + 1))) := h.1 (by decide) rfl
  constructor
  · rw [h1]
    have : (List.range 2).map (fun i => (2 : ℚ) ^ (i + 1)) = [2, 4] := by
      simp [List.range_succ]
      norm_num
    rw [this]
  · have hs := (h.2.2.2 (fun _ => exFetch) 100 [] [] rfl).1 exRows (by rw [h1])
    simpa using hs

/-- The distinct (gameId, teamId) keys of the injury records
(`groupby(['gameId','teamId'])` group keys; their order is irrelevant to the
merge below). -/
def dedupKeys : List InjRow → List (Nat × Nat)
  | [] => []
  | r :: rest =>
    if (dedupKeys rest).contains (r.gameId, r.teamId) then dedupKeys rest
    else (r.gameId, r.teamId) :: dedupKeys rest

/-- Model of `injuries_log.groupby(['gameId','teamId']).size()`: one row per distinct
key with the number of matching injury records. -/
def injury_counts (inj : List InjRow) : List ((Nat × Nat) × Nat) :=
  (dedupKeys inj).map
    (fun k2 => (k2, (inj.filter (fun r => (r.gameId, r.teamId) == k2)).length))

/-- Model of `merge_injuries_with_games` from `get_injuries.py`: with no injury data
(or an empty frame), every row gets `INJURED_PLAYERS = 0`; otherwise a left
join of the game log with the per-(game, team) counts, missing matches filled
with 0. -/
def merge_injuries_with_games (game_log : List DataRow)
    (injuries_log : Option (List InjRow)) : List (DataRow × Nat) :=
  match injuries_log with
  | none => game_log.map (fun g => (g, 0))
  | some inj =>
    if inj.isEmpty then game_log.map (fun g => (g, 0))
    else
      game_log.map (fun g =>
        (g, match (injury_counts inj).find? (fun p => p.1 == (g.gameId, g.teamId)) with
            | some p => p.2
            | none => 0))

/-- Claim wording: the number of injury records carrying the row's game and
team ids (0 when the injury data is absent). -/
def directInjuryCount (injuries_log : Option (List InjRow)) (gid tid : Nat) : Nat :=
  match injuries_log with
  | none => 0
  | some inj => (inj.filter (fun r => r.gameId == gid && r.teamId == tid)).length

theorem find?_beq_self {α : Type} [BEq α] [LawfulBEq α] (l : List α) (a : α) :
    l.find? (fun x => x == a) = if l.contains a then some a else none := by
  induction l with
  | nil => rfl
  | cons x xs ih =>
    by_cases hxa : x = a
    · subst hxa
      simp [List.find?_cons]
    · have hb : (x == a) = false := by simpa using hxa
      have hb2 : (a == x) = false := by simpa using (Ne.symm hxa)
      simp [List.find?_cons, hb, hb2, List.contains_cons, ih]

theorem find?_map_key {γ : Type} (keys : List (Nat × Nat)) (f : Nat × Nat → γ)
    (key : Nat × Nat) :
    (keys.map (fun k2 => (k2, f k2))).find? (fun p => p.1 == key) =
      (keys.find? (fun k2 => k2 == key)).map (fun k2 => (k2, f k2)) := by
  induction keys with
  | nil => rfl
  | cons k2 ks ih =>
    cases h : (k2 == key) with
    | true => simp [List.find?_cons, h]
    | false => simp [List.find?_cons, h, ih]

theorem mem_dedupKeys (inj : List InjRow) (key : Nat × Nat) :
    (dedupKeys inj).contains key = true ↔ ∃ r ∈ inj, (r.gameId, r.teamId) = key := by
  induction inj with
  | nil => simp [dedupKeys]
  | cons r rest ih =>
    rw [dedupKeys]
    by_cases hc : (dedupKeys rest).contains (r.gameId, r.teamId) = true
    · rw [if_pos hc]
      constructor
      · intro h
        obtain ⟨r2, hr2, he⟩ := ih.mp h
        exact ⟨r2, List.mem_cons_of_mem r hr2, he⟩
      · rintro ⟨r2, hr2, he⟩
        rcases List.mem_cons.mp hr2 with rfl | h2
        · rw [← he]
          exact hc
        · exact ih.mpr ⟨r2, h2, he⟩
    · rw [if_neg hc, List.contains_cons]
      constructor
      · intro h
        have h' : (key == (r.gameId, r.teamId)) = true ∨
            (dedupKeys rest).contains key = true := by simpa using h
        rcases h' with h1 | h2
        · exact ⟨r, List.mem_cons_self r rest, (eq_of_beq h1).symm⟩
        · obtain ⟨r2, hr2, he⟩ := ih.mp h2
          exact ⟨r2, List.mem_cons_of_mem r hr2, he⟩
      · rintro ⟨r2, hr2, he⟩
        rcases List.mem_cons.mp hr2 with rfl | h2
        · rw [he]
          simp
        · rw [ih.mpr ⟨r2, h2, he⟩, Bool.or_true]

/-- C10: `merge_injuries_with_games` returns the game-log rows unchanged
in number and order, each paired with an `INJURED_PLAYERS` count equal to the
number of injury records with that row's `gameId` and `teamId` — 0 when there
is none or when the injury data is `None`/empty; nothing else about the rows
is touched. -/
theorem merge_injuries_correct (game_log : List DataRow)
    (injuries_log : Option (List InjRow)) :
    merge_injuries_with_games game_log injuries_log =
      game_log.map (fun g => (g, directInjuryCount injuries_log g.gameId g.teamId)) := by
  unfold merge_injuries_with_games directInjuryCount
  cases injuries_log with
  | none => rfl
  | some inj =>
    dsimp only
    by_cases hie : inj.isEmpty
    · rw [if_pos hie]
      have hnil : inj = [] := by
        cases inj with
        | nil => rfl
        | cons a l => simp at hie
      subst hnil
      simp
    · rw [if_neg hie]
      apply List.map_congr_left
      intro g _
      refine congrArg (fun n => (g, n)) ?_
      unfold injury_counts
      rw [find?_map_key, find?_beq_self]
      by_cases hc : (dedupKeys inj).contains (g.gameId, g.teamId) = true
      · rw [if_pos hc]
        simp only [Option.map_some']
        show (inj.filter (fun r => (r.gameId, r.teamId) == (g.gameId, g.teamId))).length =
          (inj.filter (fun r => r.gameId == g.gameId && r.teamId == g.teamId)).length
        rfl
      · rw [if_neg hc]
        simp only [Option.map_none']
        have hno : ∀ r ∈ inj, ¬((r.gameId == g.gameId && r.teamId == g.teamId) = true) := by
          intro r hr hb
          apply hc
          apply (mem_dedupKeys inj (g.gameId, g.teamId)).mpr
          refine ⟨r, hr, ?_⟩
          have hb2 : (r.gameId == g.gameId) = true ∧ (r.teamId == g.teamId) = true := by
            simpa using hb
          rw [eq_of_beq hb2.1, eq_of_beq hb2.2]
        rw [List.filter_eq_nil_iff.mpr hno]
        rfl
